import Mathlib

/-!
# qjs_ffi_shim.c : symbol re-exporter, callback registry, trampolines, registration

A shallow embedding of `src/native/quickjs-shim/qjs_ffi_shim.c`.

* C pointers are addresses (`Nat`), `NULL` is `0`; C `int` values are `Int`
  (the shim never does arithmetic on them, it only passes them on).
* The six `static HostCallback` variables are six fields of `State`.
* A `HostCallback` is a function pointer into host code the shim does not
  contain; what the code behind a pointer does is given by a `HostCode`
  parameter, which may transform the whole state.
* `quickjs.h` and the engine library are not among the sources: the nine
  inline primitives and the three library calls used by the registration
  routine are the fields of an `Engine` parameter; `specEngine` fills the
  four that registration uses with the global-namespace behaviour the
  specification describes.
-/

namespace QjsFfiShim

/-! ## Engine values -/

/-- Pointer to a script-engine context (`JSContext *`), identified by its address. -/
abbrev JSContext := Nat

/-- The six callback slots of the registry, in declaration order. -/
inductive Slot
  | flush
  | events
  | log
  | measure
  | report_error
  | random
  deriving DecidableEq, Repr

/-- A `JSCFunction *`: the address of one of the six static trampolines of this
file, or of some other native function. -/
inductive JSCFunction
  | trampoline_flush
  | trampoline_events
  | trampoline_log
  | trampoline_measure
  | trampoline_report_error
  | trampoline_random
  | other (addr : Nat)
  deriving DecidableEq, Repr

/-- Modelled from the spec: the identity of an engine object (`quickjs.h` is not
among the sources). The global object of a context is named by its context;
every other object by its allocation index in the engine heap. -/
inductive ObjRef
  | globalOf (ctx : JSContext)
  | alloc (id : Nat)
  deriving DecidableEq, Repr

/-- Modelled from the spec: the engine value type `JSValue` (`quickjs.h` is not
among the sources): the canonical undefined value, the exception value, the
booleans, integers, floats (as their 64-bit pattern) and strings the re-exported
constructors build, and references to objects. -/
inductive JSValue
  | undefined
  | null
  | exception
  | bool (b : Bool)
  | int32 (n : Int)
  | float64 (bits : Nat)
  | string (s : String)
  | object (ref : ObjRef)
  deriving DecidableEq, Repr

/-- Modelled from the spec: the macro `JS_UNDEFINED` of `quickjs.h`, the engine's
canonical undefined value. -/
def JS_UNDEFINED : JSValue := JSValue.undefined

/-- Modelled from the spec: what a native function object is made of (`quickjs.h` is
not among the sources): "a native function object with a fixed declared arity
and the corresponding trampoline as its implementation", and its name. -/
structure CFunctionData where
  func : JSCFunction
  name : String
  length : Int
  deriving DecidableEq, Repr

/-- Modelled from the spec: an engine object: its named properties in insertion
order, the native function it wraps (if it is a native function object), and
the number of references held to it. -/
structure JSObject where
  props : List (String × JSValue)
  cfunc : Option CFunctionData
  ref_count : Nat
  deriving DecidableEq, Repr

/-- Modelled from the spec: the engine's state: the global object of every
initialised context (`none` for an address that is no initialised context) and
the heap of allocated objects. -/
structure EngineState where
  globals : JSContext → Option JSObject
  heap : List JSObject

/-! ## The callback registry -/

/-- `typedef void (*HostCallback)(JSContext *ctx, int argc, JSValue *argv, JSValue *ret)`:
a function pointer, identified by its address. -/
abbrev HostCallback := Nat

/-- The null function pointer. -/
def NULL : HostCallback := 0

/-- The program state: the six `static HostCallback` variables of the file, the
engine's state, and the memory of the host runtime. -/
structure State where
  host_flush_cb : HostCallback
  host_events_cb : HostCallback
  host_log_cb : HostCallback
  host_measure_cb : HostCallback
  host_report_error_cb : HostCallback
  host_random_cb : HostCallback
  engine : EngineState
  host_mem : List Int

/-- The state at program start: every slot is initialised to `NULL`. -/
def State.start (engine : EngineState) (host_mem : List Int) : State :=
  { host_flush_cb := NULL
    host_events_cb := NULL
    host_log_cb := NULL
    host_measure_cb := NULL
    host_report_error_cb := NULL
    host_random_cb := NULL
    engine := engine
    host_mem := host_mem }

/-- What the host code behind each function pointer does when called as
`cb(ctx, argc, argv, &ret)` in a state: given the content of the holder `*ret`
at the call, it yields the last value it stored through `ret` (`none` when it
stored nothing) and the state it leaves behind. -/
abbrev HostCode :=
  HostCallback → JSContext → Int → List JSValue → JSValue → State → Option JSValue × State

/-- One call made through a registry slot: the pointer called, the arguments
handed over, and the content of the output holder at the call. -/
structure CallRecord where
  cb : HostCallback
  ctx : JSContext
  argc : Int
  argv : List JSValue
  holder : JSValue
  deriving DecidableEq, Repr

/-- What one trampoline invocation does: the value it returns, the state it
leaves, and the callback calls it made. -/
structure Outcome where
  ret : JSValue
  state : State
  calls : List CallRecord

/-- `static JSValue trampoline_flush(JSContext *ctx, JSValue this_val, int argc, JSValue *argv)`:
`JSValue ret = JS_UNDEFINED; if (host_flush_cb) host_flush_cb(ctx, argc, argv, &ret); return ret;`
The local `ret` is the holder the callback writes through; the outcome also
records the call made. -/
def trampoline_flush (host : HostCode) (ctx : JSContext) (_this_val : JSValue) (argc : Int)
    (argv : List JSValue) (s : State) : Outcome :=
  let ret := JS_UNDEFINED
  if s.host_flush_cb ≠ NULL then
    let r := host s.host_flush_cb ctx argc argv ret s
    { ret := r.1.getD ret, state := r.2, calls := [⟨s.host_flush_cb, ctx, argc, argv, ret⟩] }
  else
    { ret := ret, state := s, calls := [] }

/-- `static JSValue trampoline_events(...)` -/
def trampoline_events (host : HostCode) (ctx : JSContext) (_this_val : JSValue) (argc : Int)
    (argv : List JSValue) (s : State) : Outcome :=
  let ret := JS_UNDEFINED
  if s.host_events_cb ≠ NULL then
    let r := host s.host_events_cb ctx argc argv ret s
    { ret := r.1.getD ret, state := r.2, calls := [⟨s.host_events_cb, ctx, argc, argv, ret⟩] }
  else
    { ret := ret, state := s, calls := [] }

/-- `static JSValue trampoline_log(...)` -/
def trampoline_log (host : HostCode) (ctx : JSContext) (_this_val : JSValue) (argc : Int)
    (argv : List JSValue) (s : State) : Outcome :=
  let ret := JS_UNDEFINED
  if s.host_log_cb ≠ NULL then
    let r := host s.host_log_cb ctx argc argv ret s
    { ret := r.1.getD ret, state := r.2, calls := [⟨s.host_log_cb, ctx, argc, argv, ret⟩] }
  else
    { ret := ret, state := s, calls := [] }

/-- `static JSValue trampoline_measure(...)` -/
def trampoline_measure (host : HostCode) (ctx : JSContext) (_this_val : JSValue) (argc : Int)
    (argv : List JSValue) (s : State) : Outcome :=
  let ret := JS_UNDEFINED
  if s.host_measure_cb ≠ NULL then
    let r := host s.host_measure_cb ctx argc argv ret s
    { ret := r.1.getD ret, state := r.2, calls := [⟨s.host_measure_cb, ctx, argc, argv, ret⟩] }
  else
    { ret := ret, state := s, calls := [] }

/-- `static JSValue trampoline_report_error(...)` -/
def trampoline_report_error (host : HostCode) (ctx : JSContext) (_this_val : JSValue)
    (argc : Int) (argv : List JSValue) (s : State) : Outcome :=
  let ret := JS_UNDEFINED
  if s.host_report_error_cb ≠ NULL then
    let r := host s.host_report_error_cb ctx argc argv ret s
    { ret := r.1.getD ret, state := r.2, calls := [⟨s.host_report_error_cb, ctx, argc, argv, ret⟩] }
  else
    { ret := ret, state := s, calls := [] }

/-- `static JSValue trampoline_random(...)` -/
def trampoline_random (host : HostCode) (ctx : JSContext) (_this_val : JSValue) (argc : Int)
    (argv : List JSValue) (s : State) : Outcome :=
  let ret := JS_UNDEFINED
  if s.host_random_cb ≠ NULL then
    let r := host s.host_random_cb ctx argc argv ret s
    { ret := r.1.getD ret, state := r.2, calls := [⟨s.host_random_cb, ctx, argc, argv, ret⟩] }
  else
    { ret := ret, state := s, calls := [] }

/-- `void qjs_set_host_flush(HostCallback cb) { host_flush_cb = cb; }` -/
def qjs_set_host_flush (cb : HostCallback) (s : State) : State :=
  { s with host_flush_cb := cb }

/-- `void qjs_set_host_events(HostCallback cb) { host_events_cb = cb; }` -/
def qjs_set_host_events (cb : HostCallback) (s : State) : State :=
  { s with host_events_cb := cb }

/-- `void qjs_set_host_log(HostCallback cb) { host_log_cb = cb; }` -/
def qjs_set_host_log (cb : HostCallback) (s : State) : State :=
  { s with host_log_cb := cb }

/-- `void qjs_set_host_measure(HostCallback cb) { host_measure_cb = cb; }` -/
def qjs_set_host_measure (cb : HostCallback) (s : State) : State :=
  { s with host_measure_cb := cb }

/-- `void qjs_set_host_report_error(HostCallback cb) { host_report_error_cb = cb; }` -/
def qjs_set_host_report_error (cb : HostCallback) (s : State) : State :=
  { s with host_report_error_cb := cb }

/-- `void qjs_set_host_random(HostCallback cb) { host_random_cb = cb; }` -/
def qjs_set_host_random (cb : HostCallback) (s : State) : State :=
  { s with host_random_cb := cb }

/-- The static variable behind a slot. -/
def Slot.get : Slot → State → HostCallback
  | .flush, s => s.host_flush_cb
  | .events, s => s.host_events_cb
  | .log, s => s.host_log_cb
  | .measure, s => s.host_measure_cb
  | .report_error, s => s.host_report_error_cb
  | .random, s => s.host_random_cb

/-- The exported setter of a slot. -/
def Slot.setter : Slot → HostCallback → State → State
  | .flush => qjs_set_host_flush
  | .events => qjs_set_host_events
  | .log => qjs_set_host_log
  | .measure => qjs_set_host_measure
  | .report_error => qjs_set_host_report_error
  | .random => qjs_set_host_random

/-- The trampoline of a slot. -/
def Slot.trampoline : Slot → HostCode → JSContext → JSValue → Int → List JSValue → State → Outcome
  | .flush => trampoline_flush
  | .events => trampoline_events
  | .log => trampoline_log
  | .measure => trampoline_measure
  | .report_error => trampoline_report_error
  | .random => trampoline_random

/-! ## The engine interface -/

/-- The declarations of `quickjs.h` the file relies on, as a parameter: the nine
`static inline` primitives (renamed `*_inline` by the `#define`s at the top of
the file) and the three library functions the registration routine calls.
A `const char *` argument is the string it points to; a returned `const char *`
is `none` when it is `NULL`; a `double` is its 64-bit pattern. Every
primitive that receives the context may read and change the engine state. -/
structure Engine where
  JS_ToCString_inline : JSContext → JSValue → EngineState → Option String × EngineState
  JS_NewString_inline : JSContext → String → EngineState → JSValue × EngineState
  JS_NewBool_inline : JSContext → Int → EngineState → JSValue × EngineState
  JS_NewInt32_inline : JSContext → Int → EngineState → JSValue × EngineState
  JS_NewFloat64_inline : JSContext → Nat → EngineState → JSValue × EngineState
  JS_IsException_inline : JSValue → Int
  JS_IsUndefined_inline : JSValue → Int
  JS_NewCFunction_inline :
    JSContext → JSCFunction → String → Int → EngineState → JSValue × EngineState
  JS_AtomToCString_inline : JSContext → Nat → EngineState → Option String × EngineState
  JS_GetGlobalObject : JSContext → EngineState → JSValue × EngineState
  JS_SetPropertyStr : JSContext → JSValue → String → JSValue → EngineState → Int × EngineState
  JS_FreeValue : JSContext → JSValue → EngineState → EngineState

/-! ## Part 1: inline function wrappers -/

/-- `const char *JS_ToCString(JSContext *ctx, JSValue val)` -/
def JS_ToCString (E : Engine) (ctx : JSContext) (val : JSValue) (es : EngineState) :
    Option String × EngineState :=
  E.JS_ToCString_inline ctx val es

/-- `JSValue JS_NewString(JSContext *ctx, const char *str)` -/
def JS_NewString (E : Engine) (ctx : JSContext) (str : String) (es : EngineState) :
    JSValue × EngineState :=
  E.JS_NewString_inline ctx str es

/-- `JSValue JS_NewBool(JSContext *ctx, int val)` -/
def JS_NewBool (E : Engine) (ctx : JSContext) (val : Int) (es : EngineState) :
    JSValue × EngineState :=
  E.JS_NewBool_inline ctx val es

/-- `JSValue JS_NewInt32(JSContext *ctx, int32_t val)` -/
def JS_NewInt32 (E : Engine) (ctx : JSContext) (val : Int) (es : EngineState) :
    JSValue × EngineState :=
  E.JS_NewInt32_inline ctx val es

/-- `JSValue JS_NewFloat64(JSContext *ctx, double val)` -/
def JS_NewFloat64 (E : Engine) (ctx : JSContext) (val : Nat) (es : EngineState) :
    JSValue × EngineState :=
  E.JS_NewFloat64_inline ctx val es

/-- `int JS_IsException(JSValue val) { return JS_IsException_inline(val) ? 1 : 0; }` -/
def JS_IsException (E : Engine) (val : JSValue) : Int :=
  if E.JS_IsException_inline val ≠ 0 then 1 else 0

/-- `int JS_IsUndefined(JSValue val) { return JS_IsUndefined_inline(val) ? 1 : 0; }` -/
def JS_IsUndefined (E : Engine) (val : JSValue) : Int :=
  if E.JS_IsUndefined_inline val ≠ 0 then 1 else 0

/-- `JSValue JS_NewCFunction(JSContext *ctx, JSCFunction *func, const char *name, int length)` -/
def JS_NewCFunction (E : Engine) (ctx : JSContext) (func : JSCFunction) (name : String)
    (length : Int) (es : EngineState) : JSValue × EngineState :=
  E.JS_NewCFunction_inline ctx func name length es

/-- `const char *JS_AtomToCString(JSContext *ctx, JSAtom atom)` -/
def JS_AtomToCString (E : Engine) (ctx : JSContext) (atom : Nat) (es : EngineState) :
    Option String × EngineState :=
  E.JS_AtomToCString_inline ctx atom es

/-! ## Registration -/

/-- `void qjs_register_host_functions(JSContext *ctx)`: fetch the global object,
then six times build a native function object and store it under its name
(the argument `JS_NewCFunction_inline(...)` is evaluated before the call of
`JS_SetPropertyStr` it is passed to, whose `int` result is discarded), then
release the global object. -/
def qjs_register_host_functions (E : Engine) (ctx : JSContext) (s : State) : State :=
  let global := E.JS_GetGlobalObject ctx s.engine
  let f1 := E.JS_NewCFunction_inline ctx JSCFunction.trampoline_flush "__hostFlush" 1 global.2
  let e1 := (E.JS_SetPropertyStr ctx global.1 "__hostFlush" f1.1 f1.2).2
  let f2 := E.JS_NewCFunction_inline ctx JSCFunction.trampoline_events "__hostGetEvents" 0 e1
  let e2 := (E.JS_SetPropertyStr ctx global.1 "__hostGetEvents" f2.1 f2.2).2
  let f3 := E.JS_NewCFunction_inline ctx JSCFunction.trampoline_log "__hostLog" 1 e2
  let e3 := (E.JS_SetPropertyStr ctx global.1 "__hostLog" f3.1 f3.2).2
  let f4 := E.JS_NewCFunction_inline ctx JSCFunction.trampoline_measure "__hostMeasureText" 1 e3
  let e4 := (E.JS_SetPropertyStr ctx global.1 "__hostMeasureText" f4.1 f4.2).2
  let f5 :=
    E.JS_NewCFunction_inline ctx JSCFunction.trampoline_report_error "__hostReportError" 1 e4
  let e5 := (E.JS_SetPropertyStr ctx global.1 "__hostReportError" f5.1 f5.2).2
  let f6 := E.JS_NewCFunction_inline ctx JSCFunction.trampoline_random "__hostRandomBytes" 1 e5
  let e6 := (E.JS_SetPropertyStr ctx global.1 "__hostRandomBytes" f6.1 f6.2).2
  { s with engine := E.JS_FreeValue ctx global.1 e6 }

/-! ## The engine's global namespace, as the specification describes it -/

/-- Modelled from the spec: the value a name is associated with in a
name-to-value association of the engine (the engine is not among the sources). -/
def lookupProp (name : String) : List (String × JSValue) → Option JSValue
  | [] => none
  | (n, v) :: rest => if n = name then some v else lookupProp name rest

/-- Modelled from the spec: installing a name-to-value association (the engine is
not among the sources): an existing binding of the name is overwritten in
place, a new one is added at the end. -/
def setProp (name : String) (val : JSValue) : List (String × JSValue) → List (String × JSValue)
  | [] => [(name, val)]
  | (n, v) :: rest => if n = name then (n, val) :: rest else (n, v) :: setProp name val rest

/-- Modelled from the spec: the engine object a reference designates, if any (the
engine is not among the sources). -/
def objectAt (es : EngineState) : ObjRef → Option JSObject
  | .globalOf ctx => es.globals ctx
  | .alloc id => es.heap[id]?

/-- Modelled from the spec: a change applied to the engine object a reference
designates; nothing happens when it designates none (the engine is not among
the sources). -/
def modifyObject (es : EngineState) (f : JSObject → JSObject) : ObjRef → EngineState
  | .globalOf ctx =>
      { es with globals := fun c => if c = ctx then (es.globals c).map f else es.globals c }
  | .alloc id => { es with heap := es.heap.modify f id }

/-- Modelled from the spec: `JS_FreeValue` of the engine library (not among the
sources): release one reference to the object a value refers to; values that
are not object references hold no reference. -/
def specFreeValue (_ctx : JSContext) (v : JSValue) (es : EngineState) : EngineState :=
  match v with
  | .object r => modifyObject es (fun o => { o with ref_count := o.ref_count - 1 }) r
  | _ => es

/-- Modelled from the spec: `JS_GetGlobalObject` of the engine library (not among
the sources): a new reference to the context's global object. For an address
that is no initialised context there is no global object and the exception
value is returned. -/
def specGetGlobalObject (ctx : JSContext) (es : EngineState) : JSValue × EngineState :=
  match es.globals ctx with
  | some _ =>
      (JSValue.object (ObjRef.globalOf ctx),
        modifyObject es (fun o => { o with ref_count := o.ref_count + 1 }) (ObjRef.globalOf ctx))
  | none => (JSValue.exception, es)

/-- Modelled from the spec: the inline `JS_NewCFunction` of `quickjs.h` (not among
the sources): "a native function object with a fixed declared arity and the
corresponding trampoline as its implementation", freshly allocated, handed to
the caller with one reference. -/
def specNewCFunction (_ctx : JSContext) (func : JSCFunction) (name : String) (length : Int)
    (es : EngineState) : JSValue × EngineState :=
  (JSValue.object (ObjRef.alloc es.heap.length),
    { es with
      heap := es.heap ++ [{ props := [], cfunc := some ⟨func, name, length⟩, ref_count := 1 }] })

/-- Modelled from the spec: `JS_SetPropertyStr` of the engine library (not among
the sources): "a name-to-callable association installed into the script
engine's global namespace". The reference to `val` passes to the object; the
value the name was bound to before, if any, is released. When `this_obj` is no
live object the call fails with `-1` and `val` is released. -/
def specSetPropertyStr (ctx : JSContext) (this_obj : JSValue) (prop : String) (val : JSValue)
    (es : EngineState) : Int × EngineState :=
  match this_obj with
  | .object r =>
      match objectAt es r with
      | some o =>
          let es1 := modifyObject es (fun x => { x with props := setProp prop val x.props }) r
          match lookupProp prop o.props with
          | some old => (1, specFreeValue ctx old es1)
          | none => (1, es1)
      | none => (-1, specFreeValue ctx val es)
  | _ => (-1, specFreeValue ctx val es)

/-- An engine whose global namespace and native function objects behave as the
specification describes; the eight primitives that registration does not use
are those of `base`. -/
def specEngine (base : Engine) : Engine :=
  { base with
    JS_NewCFunction_inline := specNewCFunction
    JS_GetGlobalObject := specGetGlobalObject
    JS_SetPropertyStr := specSetPropertyStr
    JS_FreeValue := specFreeValue }

/-- Modelled from the spec: the global bindings of a context, "a name-to-callable
association installed into the script engine's global namespace", in insertion
order (none for an address that is no initialised context). -/
def globalProps (es : EngineState) (ctx : JSContext) : List (String × JSValue) :=
  match es.globals ctx with
  | some g => g.props
  | none => []

/-- The names bound in the global namespace of a context. -/
def globalNames (es : EngineState) (ctx : JSContext) : List String :=
  (globalProps es ctx).map Prod.fst

/-- The value a global name is bound to. -/
def lookupGlobal (es : EngineState) (ctx : JSContext) (name : String) : Option JSValue :=
  lookupProp name (globalProps es ctx)

/-- The native function a value is, when it refers to a native function object. -/
def nativeFunction (es : EngineState) : JSValue → Option CFunctionData
  | .object r => (objectAt es r).bind JSObject.cfunc
  | _ => none

/-- The native function a global name resolves to. -/
def globalFunction (es : EngineState) (ctx : JSContext) (name : String) : Option CFunctionData :=
  (lookupGlobal es ctx name).bind (nativeFunction es)

/-- Modelled from the spec: the engine calling a native function through its
`JSCFunction *` (the engine is not among the sources): the six trampolines of
this file are run; code at other addresses is not part of the file. -/
def callCFunction (host : HostCode) (f : JSCFunction) (ctx : JSContext) (this_val : JSValue)
    (argc : Int) (argv : List JSValue) (s : State) : Option Outcome :=
  match f with
  | .trampoline_flush => some (trampoline_flush host ctx this_val argc argv s)
  | .trampoline_events => some (trampoline_events host ctx this_val argc argv s)
  | .trampoline_log => some (trampoline_log host ctx this_val argc argv s)
  | .trampoline_measure => some (trampoline_measure host ctx this_val argc argv s)
  | .trampoline_report_error => some (trampoline_report_error host ctx this_val argc argv s)
  | .trampoline_random => some (trampoline_random host ctx this_val argc argv s)
  | .other _ => none

/-- Modelled from the spec: script code invoking a global ("callable from script
code with arbitrary arguments"): the name is looked up in the context's global
namespace and, when it is bound to a native function object, its
implementation is called with the arguments. `none` when the name is not
bound to one of this file's native functions. -/
def invokeGlobal (host : HostCode) (ctx : JSContext) (name : String) (this_val : JSValue)
    (argc : Int) (argv : List JSValue) (s : State) : Option Outcome :=
  match globalFunction s.engine ctx name with
  | some f => callCFunction host f.func ctx this_val argc argv s
  | none => none

/-- The `JSCFunction *` of a slot's trampoline. -/
def Slot.trampolinePtr : Slot → JSCFunction
  | .flush => JSCFunction.trampoline_flush
  | .events => JSCFunction.trampoline_events
  | .log => JSCFunction.trampoline_log
  | .measure => JSCFunction.trampoline_measure
  | .report_error => JSCFunction.trampoline_report_error
  | .random => JSCFunction.trampoline_random

/-- The global name `qjs_register_host_functions` binds a slot's trampoline to. -/
def Slot.globalName : Slot → String
  | .flush => "__hostFlush"
  | .events => "__hostGetEvents"
  | .log => "__hostLog"
  | .measure => "__hostMeasureText"
  | .report_error => "__hostReportError"
  | .random => "__hostRandomBytes"

/-- The arity `qjs_register_host_functions` declares for a slot's global. -/
def Slot.arity : Slot → Int
  | .flush => 1
  | .events => 0
  | .log => 1
  | .measure => 1
  | .report_error => 1
  | .random => 1

/-! ## Sequences of invocations and sample data -/

/-- The arguments of one trampoline invocation. -/
structure Invocation where
  ctx : JSContext
  this_val : JSValue
  argc : Int
  argv : List JSValue

/-- Invoke the trampoline of a slot once per entry, each invocation starting in
the state the previous one left. -/
def invokeAll (k : Slot) (host : HostCode) : List Invocation → State → List Outcome
  | [], _ => []
  | i :: rest, s =>
      (k.trampoline host i.ctx i.this_val i.argc i.argv s) ::
        invokeAll k host rest (k.trampoline host i.ctx i.this_val i.argc i.argv s).state

/-- Sample engine state: context `1` is initialised with an empty global object. -/
def sampleEngineState : EngineState :=
  { globals := fun c => if c = 1 then some { props := [], cfunc := none, ref_count := 1 } else none
    heap := [] }

/-- Sample program state at start. -/
def sampleState : State := State.start sampleEngineState []

/-- Sample host code: the callback at address `7` stores the exception value, the
one at `8` stores its `argc` and logs it in host memory, the one at `9`
stores the string "nine", and any other returns without storing. -/
def sampleHost : HostCode := fun cb _ctx argc _argv _holder s =>
  if cb = 7 then (some JSValue.exception, s)
  else if cb = 8 then (some (JSValue.int32 argc), { s with host_mem := argc :: s.host_mem })
  else if cb = 9 then (some (JSValue.string "nine"), s)
  else (none, s)

/-- Sample host code in which the callback at address `9`, besides storing the
string "nine", stores the pointer `8` into the flush slot by calling the
exported `qjs_set_host_flush`; every other callback is as in `sampleHost`. -/
def repointingHost : HostCode := fun cb ctx argc argv holder s =>
  if cb = 9 then (some (JSValue.string "nine"), qjs_set_host_flush 8 s)
  else sampleHost cb ctx argc argv holder s

/-- An object with its reference count forgotten. -/
def JSObject.noRefs (o : JSObject) : JSObject := { o with ref_count := 0 }

/-- An engine state with every reference count forgotten: what is left is which
objects exist, their properties and the native functions they wrap. -/
def eraseRefs (es : EngineState) : EngineState :=
  { globals := fun c => (es.globals c).map JSObject.noRefs
    heap := es.heap.map JSObject.noRefs }

/-- Sample engine: the predicates compare with the exception and the undefined
value, the constructors build the corresponding value, strings convert to
themselves, and the global namespace is that of `specEngine`. -/
def sampleEngine : Engine :=
  { JS_ToCString_inline := fun _ v es =>
      (match v with
        | JSValue.string str => some str
        | _ => none, es)
    JS_NewString_inline := fun _ str es => (JSValue.string str, es)
    JS_NewBool_inline := fun _ val es => (JSValue.bool (val != 0), es)
    JS_NewInt32_inline := fun _ val es => (JSValue.int32 val, es)
    JS_NewFloat64_inline := fun _ val es => (JSValue.float64 val, es)
    JS_IsException_inline := fun v => if v = JSValue.exception then 1 else 0
    JS_IsUndefined_inline := fun v => if v = JSValue.undefined then 1 else 0
    JS_NewCFunction_inline := specNewCFunction
    JS_AtomToCString_inline := fun _ _ es => (none, es)
    JS_GetGlobalObject := specGetGlobalObject
    JS_SetPropertyStr := specSetPropertyStr
    JS_FreeValue := specFreeValue }

/-- The position of a slot's global among the six stores of
`qjs_register_host_functions`. -/
def Slot.index : Slot → Nat
  | .flush => 0
  | .events => 1
  | .log => 2
  | .measure => 3
  | .report_error => 4
  | .random => 5

/-- The property list after the six stores of `qjs_register_host_functions`, when
the six function objects are the allocations `n`, ..., `n + 5`. -/
def registeredProps (n : Nat) (props : List (String × JSValue)) : List (String × JSValue) :=
  setProp "__hostRandomBytes" (JSValue.object (ObjRef.alloc (n + 5)))
    (setProp "__hostReportError" (JSValue.object (ObjRef.alloc (n + 4)))
      (setProp "__hostMeasureText" (JSValue.object (ObjRef.alloc (n + 3)))
        (setProp "__hostLog" (JSValue.object (ObjRef.alloc (n + 2)))
          (setProp "__hostGetEvents" (JSValue.object (ObjRef.alloc (n + 1)))
            (setProp "__hostFlush" (JSValue.object (ObjRef.alloc n)) props)))))

/-- The six native function objects `qjs_register_host_functions` allocates, in
order, with their reference counts forgotten. -/
def trampolineObjects : List JSObject :=
  [ { props := [], cfunc := some ⟨JSCFunction.trampoline_flush, "__hostFlush", 1⟩, ref_count := 0 },
    { props := [], cfunc := some ⟨JSCFunction.trampoline_events, "__hostGetEvents", 0⟩,
      ref_count := 0 },
    { props := [], cfunc := some ⟨JSCFunction.trampoline_log, "__hostLog", 1⟩, ref_count := 0 },
    { props := [], cfunc := some ⟨JSCFunction.trampoline_measure, "__hostMeasureText", 1⟩,
      ref_count := 0 },
    { props := [], cfunc := some ⟨JSCFunction.trampoline_report_error, "__hostReportError", 1⟩,
      ref_count := 0 },
    { props := [], cfunc := some ⟨JSCFunction.trampoline_random, "__hostRandomBytes", 1⟩,
      ref_count := 0 } ]

/-! ## Theorems: registry and trampolines -/

theorem get_setter_same (k : Slot) (cb : HostCallback) (s : State) :
    k.get (k.setter cb s) = cb := by
  cases k <;> rfl

theorem setter_engine (k : Slot) (cb : HostCallback) (s : State) :
    (k.setter cb s).engine = s.engine := by
  cases k <;> rfl

theorem setter_setter (k : Slot) (cb1 cb2 : HostCallback) (s : State) :
    k.setter cb2 (k.setter cb1 s) = k.setter cb2 s := by
  cases k <;> rfl

/-- Every trampoline is the same function of the content of its own slot. -/
theorem trampoline_eq (k : Slot) (host : HostCode) (ctx : JSContext) (this_val : JSValue)
    (argc : Int) (argv : List JSValue) (s : State) :
    k.trampoline host ctx this_val argc argv s =
      if k.get s ≠ NULL then
        { ret := (host (k.get s) ctx argc argv JS_UNDEFINED s).1.getD JS_UNDEFINED
          state := (host (k.get s) ctx argc argv JS_UNDEFINED s).2
          calls := [⟨k.get s, ctx, argc, argv, JS_UNDEFINED⟩] }
      else { ret := JS_UNDEFINED, state := s, calls := [] } := by
  cases k <;> rfl

/-- C1: for each of the six slots, whenever the slot is unset (at program start,
or after its setter stored `NULL`), the trampoline, for any context, receiver,
argc and argv, returns the engine's undefined value, calls no callback and
leaves the whole state, the six slots included, unchanged. -/
theorem unset_slot_is_noop (k : Slot) (host : HostCode) (ctx : JSContext) (this_val : JSValue)
    (argc : Int) (argv : List JSValue) (s : State) (hunset : k.get s = NULL) :
    k.trampoline host ctx this_val argc argv s = { ret := JS_UNDEFINED, state := s, calls := [] }
    ∧ (∀ (e : EngineState) (m : List Int), k.get (State.start e m) = NULL)
    ∧ (∀ t : State, k.get (k.setter NULL t) = NULL) := by
  refine ⟨?_, ?_, ?_⟩
  · rw [trampoline_eq]; simp [hunset]
  · intro e m; cases k <;> rfl
  · intro t; exact get_setter_same k NULL t

/-- Witness of C1: the log trampoline at program start, with sample host code. -/
theorem unset_slot_is_noop_witness :
    Slot.log.get sampleState = NULL ∧
    (Slot.log.trampoline sampleHost 1 JSValue.null 2 [JSValue.int32 5, JSValue.bool true]
        sampleState).ret = JS_UNDEFINED ∧
    (Slot.log.trampoline sampleHost 1 JSValue.null 2 [JSValue.int32 5, JSValue.bool true]
        sampleState).calls = [] :=
  ⟨rfl,
    by rw [(unset_slot_is_noop Slot.log sampleHost 1 JSValue.null 2
      [JSValue.int32 5, JSValue.bool true] sampleState rfl).1],
    by rw [(unset_slot_is_noop Slot.log sampleHost 1 JSValue.null 2
      [JSValue.int32 5, JSValue.bool true] sampleState rfl).1]⟩

/-- C2: for each of the six slots and every engine value `v` (the exception value
included): after the slot's setter is called with a callback that stores `v`
through its output pointer, the trampoline returns exactly `v`. -/
theorem trampoline_returns_written_value (k : Slot) (host : HostCode) (cb : HostCallback)
    (v : JSValue) (ctx : JSContext) (this_val : JSValue) (argc : Int) (argv : List JSValue)
    (s : State) (hcb : cb ≠ NULL)
    (hwrites : (host cb ctx argc argv JS_UNDEFINED (k.setter cb s)).1 = some v) :
    (k.trampoline host ctx this_val argc argv (k.setter cb s)).ret = v := by
  rw [trampoline_eq, get_setter_same]
  simp [hcb, hwrites]

/-- Witness of C2: a callback storing the exception value; it comes back as is. -/
theorem trampoline_returns_written_value_witness :
    (7 : HostCallback) ≠ NULL ∧
    (Slot.flush.trampoline sampleHost 1 JSValue.undefined 0 []
        (Slot.flush.setter 7 sampleState)).ret = JSValue.exception :=
  ⟨by decide,
    trampoline_returns_written_value Slot.flush sampleHost 7 JSValue.exception 1
      JSValue.undefined 0 [] sampleState (by decide) rfl⟩

/-- In a run of invocations of one trampoline that starts with the slot holding
`cb`, the invocation at position `n` is the trampoline run from a state in which
the slot holds `cb`, provided every earlier invocation left the slot holding
`cb`. -/
theorem invokeAll_nth (k : Slot) (host : HostCode) (cb : HostCallback) :
    ∀ (invs : List Invocation) (s0 : State), k.get s0 = cb →
      ∀ (n : Nat) (i : Invocation) (o : Outcome), invs[n]? = some i →
        (invokeAll k host invs s0)[n]? = some o →
        (∀ (m : Nat) (p : Outcome), m < n →
          (invokeAll k host invs s0)[m]? = some p → k.get p.state = cb) →
        ∃ t : State, k.get t = cb ∧ o = k.trampoline host i.ctx i.this_val i.argc i.argv t := by
  intro invs
  induction invs with
  | nil => intro s0 _ n i o hi; simp at hi
  | cons j rest ih =>
    intro s0 hs n i o hi ho hprev
    cases n with
    | zero =>
      simp only [invokeAll, List.getElem?_cons_zero, Option.some.injEq] at hi ho
      subst hi
      exact ⟨s0, hs, ho.symm⟩
    | succ n =>
      simp only [invokeAll, List.getElem?_cons_succ] at hi ho
      have h0 := hprev 0 (k.trampoline host j.ctx j.this_val j.argc j.argv s0) (Nat.succ_pos n)
        (by simp [invokeAll])
      refine ih _ h0 n i o hi ho ?_
      intro m p hm hp
      exact hprev (m + 1) p (Nat.succ_lt_succ hm) (by simpa [invokeAll] using hp)

/-- C3 (amended): for each of the six slots and any two callbacks `cb1`, `cb2`: the
second setter call stores `cb2` unconditionally over `cb1` (the state is the
one a single call with `cb2` gives), and every subsequent invocation of the
slot's trampoline made before the slot is stored to again, that is, for which
every earlier invocation left the slot holding `cb2`, calls `cb2`, once, with
the arguments it received, never `cb1`, and returns what `cb2` stored. The
first invocation after the two setter calls does so without any condition. -/
theorem last_setter_wins (k : Slot) (host : HostCode) (cb1 cb2 : HostCallback) (s : State)
    (invs : List Invocation) (hcb2 : cb2 ≠ NULL) :
    k.setter cb2 (k.setter cb1 s) = k.setter cb2 s
    ∧ k.get (k.setter cb2 (k.setter cb1 s)) = cb2
    ∧ (∀ (n : Nat) (i : Invocation) (o : Outcome), invs[n]? = some i →
        (invokeAll k host invs (k.setter cb2 (k.setter cb1 s)))[n]? = some o →
        (∀ (m : Nat) (p : Outcome), m < n →
          (invokeAll k host invs (k.setter cb2 (k.setter cb1 s)))[m]? = some p →
          k.get p.state = cb2) →
        o.calls = [⟨cb2, i.ctx, i.argc, i.argv, JS_UNDEFINED⟩]
        ∧ (cb1 ≠ cb2 → ∀ c ∈ o.calls, c.cb ≠ cb1)
        ∧ ∃ t : State, k.get t = cb2
            ∧ o.ret = (host cb2 i.ctx i.argc i.argv JS_UNDEFINED t).1.getD JS_UNDEFINED
            ∧ o.state = (host cb2 i.ctx i.argc i.argv JS_UNDEFINED t).2) := by
  refine ⟨setter_setter k cb1 cb2 s, get_setter_same k cb2 _, ?_⟩
  intro n i o hi ho hprev
  obtain ⟨t, ht, rfl⟩ :=
    invokeAll_nth k host cb2 invs _ (get_setter_same k cb2 _) n i o hi ho hprev
  have hcalls : (k.trampoline host i.ctx i.this_val i.argc i.argv t).calls
      = [⟨cb2, i.ctx, i.argc, i.argv, JS_UNDEFINED⟩] := by
    rw [trampoline_eq, ht]; simp [hcb2]
  refine ⟨hcalls, ?_, t, ht, ?_, ?_⟩
  · intro hne c hc heq
    rw [hcalls] at hc
    simp only [List.mem_singleton] at hc
    rw [hc] at heq
    exact hne heq.symm
  · rw [trampoline_eq, ht]; simp [hcb2]
  · rw [trampoline_eq, ht]; simp [hcb2]

/-- Witness of C3: callback `9` registered over callback `8` on the measure slot,
then two invocations; the second one, too, calls `9`. -/
theorem last_setter_wins_witness :
    (9 : HostCallback) ≠ NULL ∧
    (invokeAll Slot.measure sampleHost
        [⟨1, JSValue.null, 1, [JSValue.string "a"]⟩, ⟨1, JSValue.null, 0, []⟩]
        (Slot.measure.setter 9 (Slot.measure.setter 8 sampleState)))[1]?.map Outcome.calls
      = some [⟨9, 1, 0, [], JS_UNDEFINED⟩] := by
  refine ⟨by decide, ?_⟩
  have h := (last_setter_wins Slot.measure sampleHost 8 9 sampleState
    [⟨1, JSValue.null, 1, [JSValue.string "a"]⟩, ⟨1, JSValue.null, 0, []⟩] (by decide)).2.2 1
    ⟨1, JSValue.null, 0, []⟩ _ rfl rfl
    (by
      intro m p hm hp
      have hm0 : m = 0 := by omega
      subst hm0
      simp only [invokeAll, List.getElem?_cons_zero, Option.some.injEq] at hp
      subst hp
      rfl)
  simp only [invokeAll, List.getElem?_cons_succ, List.getElem?_cons_zero, Option.map_some']
  exact congrArg some h.1

/-- Counterexample to C3 as stated: the callback `9`, registered over `8` on the
flush slot, stores `8` back into the slot through the exported setter while it
runs; the first invocation calls `9`, the second calls `8`, the first
callback. -/
theorem last_setter_wins_literal_fails :
    (9 : HostCallback) ≠ NULL ∧ (8 : HostCallback) ≠ 9 ∧
    (invokeAll Slot.flush repointingHost
        [⟨1, JSValue.null, 0, []⟩, ⟨1, JSValue.null, 0, []⟩]
        (Slot.flush.setter 9 (Slot.flush.setter 8 sampleState))).map Outcome.calls
      = [[⟨9, 1, 0, [], JS_UNDEFINED⟩], [⟨8, 1, 0, [], JS_UNDEFINED⟩]] ∧
    ¬ (∀ o ∈ invokeAll Slot.flush repointingHost
        [⟨1, JSValue.null, 0, []⟩, ⟨1, JSValue.null, 0, []⟩]
        (Slot.flush.setter 9 (Slot.flush.setter 8 sampleState)), ∀ c ∈ o.calls, c.cb ≠ 8) := by
  refine ⟨by decide, by decide, rfl, ?_⟩
  intro h
  exact h (Slot.flush.trampoline repointingHost 1 JSValue.null 0 []
      (Slot.flush.trampoline repointingHost 1 JSValue.null 0 []
        (Slot.flush.setter 9 (Slot.flush.setter 8 sampleState))).state)
    (by simp [invokeAll]) ⟨8, 1, 0, [], JS_UNDEFINED⟩ (by decide) rfl

/-- C4: for each of the six slots: if the registered callback returns without
storing through its output pointer, the trampoline, having called it once,
returns the engine's undefined value. -/
theorem silent_callback_gives_undefined (k : Slot) (host : HostCode) (ctx : JSContext)
    (this_val : JSValue) (argc : Int) (argv : List JSValue) (s : State)
    (hset : k.get s ≠ NULL)
    (hsilent : (host (k.get s) ctx argc argv JS_UNDEFINED s).1 = none) :
    (k.trampoline host ctx this_val argc argv s).ret = JS_UNDEFINED
    ∧ (k.trampoline host ctx this_val argc argv s).calls
        = [⟨k.get s, ctx, argc, argv, JS_UNDEFINED⟩] := by
  rw [trampoline_eq]
  simp [hset, hsilent]

/-- Witness of C4: callback `5` of the sample host stores nothing. -/
theorem silent_callback_gives_undefined_witness :
    Slot.random.get (Slot.random.setter 5 sampleState) ≠ NULL ∧
    (Slot.random.trampoline sampleHost 1 JSValue.null 1 [JSValue.int32 16]
        (Slot.random.setter 5 sampleState)).ret = JS_UNDEFINED :=
  ⟨by decide,
    (silent_callback_gives_undefined Slot.random sampleHost 1 JSValue.null 1 [JSValue.int32 16]
      (Slot.random.setter 5 sampleState) (by decide) rfl).1⟩

/-- C9: for each of the six trampolines with its slot set to a callback `cb`: one
invocation with `(ctx, this_val, argc, argv)` calls `cb` exactly once, with the
same `ctx`, `argc` and `argv` and an output holder that contains the undefined
value; it returns what `cb` stored (undefined if nothing) and leaves the state
`cb` left; the receiver `this_val` is not handed to `cb` and changes nothing. -/
theorem trampoline_calls_callback_once (k : Slot) (host : HostCode) (cb : HostCallback)
    (ctx : JSContext) (this_val : JSValue) (argc : Int) (argv : List JSValue) (s : State)
    (hslot : k.get s = cb) (hcb : cb ≠ NULL) :
    (k.trampoline host ctx this_val argc argv s).calls = [⟨cb, ctx, argc, argv, JS_UNDEFINED⟩]
    ∧ (k.trampoline host ctx this_val argc argv s).ret
        = (host cb ctx argc argv JS_UNDEFINED s).1.getD JS_UNDEFINED
    ∧ (k.trampoline host ctx this_val argc argv s).state
        = (host cb ctx argc argv JS_UNDEFINED s).2
    ∧ (∀ other_this : JSValue,
        k.trampoline host ctx other_this argc argv s
          = k.trampoline host ctx this_val argc argv s) := by
  refine ⟨?_, ?_, ?_, ?_⟩
  · rw [trampoline_eq, hslot]; simp [hcb]
  · rw [trampoline_eq, hslot]; simp [hcb]
  · rw [trampoline_eq, hslot]; simp [hcb]
  · intro other_this; rw [trampoline_eq, trampoline_eq]

/-- Witness of C9: the events trampoline with callback `8`, which stores its `argc`. -/
theorem trampoline_calls_callback_once_witness :
    (Slot.events.trampoline sampleHost 1 (JSValue.string "receiver") 3
        [JSValue.int32 1, JSValue.int32 2, JSValue.int32 3]
        (Slot.events.setter 8 sampleState)).calls
      = [⟨8, 1, 3, [JSValue.int32 1, JSValue.int32 2, JSValue.int32 3], JS_UNDEFINED⟩] :=
  (trampoline_calls_callback_once Slot.events sampleHost 8 1 (JSValue.string "receiver") 3
    [JSValue.int32 1, JSValue.int32 2, JSValue.int32 3] (Slot.events.setter 8 sampleState)
    rfl (by decide)).1

theorem map_modify_comm {α β : Type} (g : α → β) (f : α → α) (f2 : β → β)
    (h : ∀ a, g (f a) = f2 (g a)) : ∀ (l : List α) (i : Nat),
    (l.modify f i).map g = (l.map g).modify f2 i := by
  intro l
  induction l with
  | nil => intro i; simp
  | cons a rest ih =>
    intro i
    cases i with
    | zero => simp [h]
    | succ j => simp [ih]

theorem lookupProp_setProp_same (n : String) (v : JSValue) (l : List (String × JSValue)) :
    lookupProp n (setProp n v l) = some v := by
  induction l with
  | nil => simp [setProp, lookupProp]
  | cons p rest ih =>
    obtain ⟨m, w⟩ := p
    by_cases h : m = n
    · simp [setProp, lookupProp, h]
    · simp [setProp, lookupProp, h, ih]

theorem lookupProp_setProp_other (n m : String) (h : m ≠ n) (v : JSValue)
    (l : List (String × JSValue)) :
    lookupProp n (setProp m v l) = lookupProp n l := by
  induction l with
  | nil => simp [setProp, lookupProp, h]
  | cons p rest ih =>
    obtain ⟨k, w⟩ := p
    by_cases hk : k = m
    · subst hk; simp [setProp, lookupProp, h]
    · by_cases hn : k = n
      · subst hn; simp [setProp, lookupProp, hk]
      · simp [setProp, lookupProp, hk, hn, ih]

theorem setProp_absent (n : String) (v : JSValue) (l : List (String × JSValue))
    (h : lookupProp n l = none) : setProp n v l = l ++ [(n, v)] := by
  induction l with
  | nil => rfl
  | cons p rest ih =>
    obtain ⟨k, w⟩ := p
    by_cases hk : k = n
    · simp [lookupProp, hk] at h
    · simp [lookupProp, hk] at h
      simp [setProp, hk, ih h]

theorem names_setProp_present (n : String) (v : JSValue) (l : List (String × JSValue))
    (h : (lookupProp n l).isSome) : (setProp n v l).map Prod.fst = l.map Prod.fst := by
  induction l with
  | nil => simp [lookupProp] at h
  | cons p rest ih =>
    obtain ⟨k, w⟩ := p
    by_cases hk : k = n
    · simp [setProp, hk]
    · simp [lookupProp, hk] at h
      simp [setProp, hk, ih h]

theorem eraseRefs_modify_refs (es : EngineState) (f : JSObject → JSObject)
    (hf : ∀ o, (f o).noRefs = o.noRefs) (r : ObjRef) :
    eraseRefs (modifyObject es f r) = eraseRefs es := by
  cases r with
  | globalOf c =>
    simp only [modifyObject, eraseRefs, EngineState.mk.injEq, and_true]
    funext d
    by_cases hd : d = c
    · simp only [hd, if_true]
      cases es.globals c <;> simp [hf]
    · simp [hd]
  | alloc i =>
    simp only [modifyObject, eraseRefs, EngineState.mk.injEq, true_and]
    rw [map_modify_comm JSObject.noRefs f id (by intro a; simpa using hf a)]
    simp [List.modify_eq_self, List.modify_id]

theorem eraseRefs_free (ctx : JSContext) (v : JSValue) (es : EngineState) :
    eraseRefs (specFreeValue ctx v es) = eraseRefs es := by
  cases v with
  | object r =>
    exact eraseRefs_modify_refs es (fun o => { o with ref_count := o.ref_count - 1 })
      (fun _ => rfl) r
  | _ => rfl

theorem eraseRefs_get (ctx : JSContext) (es : EngineState) :
    eraseRefs (specGetGlobalObject ctx es).2 = eraseRefs es := by
  unfold specGetGlobalObject
  cases h : es.globals ctx with
  | none => rfl
  | some g =>
    exact eraseRefs_modify_refs es (fun o => { o with ref_count := o.ref_count + 1 })
      (fun _ => rfl) (ObjRef.globalOf ctx)

theorem get_value (ctx : JSContext) (es : EngineState) :
    (specGetGlobalObject ctx es).1 =
      if ((eraseRefs es).globals ctx).isSome then JSValue.object (ObjRef.globalOf ctx)
      else JSValue.exception := by
  unfold specGetGlobalObject eraseRefs
  cases h : es.globals ctx <;> simp [h]

theorem eraseRefs_new (ctx : JSContext) (f : JSCFunction) (n : String) (l : Int)
    (es : EngineState) :
    eraseRefs (specNewCFunction ctx f n l es).2 =
      { globals := (eraseRefs es).globals
        heap := (eraseRefs es).heap ++ [{ props := [], cfunc := some ⟨f, n, l⟩, ref_count := 0 }] } := by
  simp [specNewCFunction, eraseRefs, JSObject.noRefs]

theorem new_value (ctx : JSContext) (f : JSCFunction) (n : String) (l : Int)
    (es : EngineState) :
    (specNewCFunction ctx f n l es).1 = JSValue.object (ObjRef.alloc (eraseRefs es).heap.length) := by
  simp [specNewCFunction, eraseRefs]

theorem eraseRefs_set_props (es : EngineState) (prop : String) (val : JSValue) (r : ObjRef) :
    eraseRefs (modifyObject es (fun x => { x with props := setProp prop val x.props }) r) =
      modifyObject (eraseRefs es) (fun x => { x with props := setProp prop val x.props }) r := by
  cases r with
  | globalOf c =>
    simp only [modifyObject, eraseRefs, EngineState.mk.injEq, and_true]
    funext d
    by_cases hd : d = c
    · simp only [hd, if_true]
      cases es.globals c <;> simp [JSObject.noRefs]
    · simp [hd]
  | alloc i =>
    simp only [modifyObject, eraseRefs, EngineState.mk.injEq, true_and]
    exact map_modify_comm JSObject.noRefs
      (fun x => { x with props := setProp prop val x.props })
      (fun x => { x with props := setProp prop val x.props }) (fun _ => rfl) es.heap i

theorem modifyObject_absent (es : EngineState) (f : JSObject → JSObject) (r : ObjRef)
    (h : objectAt es r = none) : modifyObject es f r = es := by
  cases r with
  | globalOf c =>
    simp only [objectAt] at h
    simp only [modifyObject]
    have : (fun d => if d = c then Option.map f (es.globals d) else es.globals d) = es.globals := by
      funext d
      by_cases hd : d = c
      · simp [hd, h]
      · simp [hd]
    rw [this]
  | alloc i =>
    simp only [objectAt] at h
    simp only [modifyObject]
    rw [List.modify_eq_self (by simpa using h)]

theorem eraseRefs_set (ctx : JSContext) (r : ObjRef) (prop : String) (val : JSValue)
    (es : EngineState) :
    eraseRefs (specSetPropertyStr ctx (JSValue.object r) prop val es).2 =
      modifyObject (eraseRefs es) (fun x => { x with props := setProp prop val x.props }) r := by
  unfold specSetPropertyStr
  simp only
  cases hobj : objectAt es r with
  | none =>
    simp only [eraseRefs_free]
    rw [← eraseRefs_set_props, modifyObject_absent es _ r hobj]
  | some o =>
    simp only
    cases lookupProp prop o.props with
    | none => exact eraseRefs_set_props es prop val r
    | some old => simp only [eraseRefs_free]; exact eraseRefs_set_props es prop val r

theorem eraseRefs_set_exception (ctx : JSContext) (prop : String) (val : JSValue)
    (es : EngineState) :
    eraseRefs (specSetPropertyStr ctx JSValue.exception prop val es).2 = eraseRefs es := by
  simp [specSetPropertyStr, eraseRefs_free]

theorem register_erased (base : Engine) (ctx : JSContext) (s : State) :
    eraseRefs (qjs_register_host_functions (specEngine base) ctx s).engine =
      { globals := fun c =>
          if c = ctx then
            ((eraseRefs s.engine).globals c).map
              (fun o => { o with props := registeredProps (eraseRefs s.engine).heap.length o.props })
          else (eraseRefs s.engine).globals c
        heap := (eraseRefs s.engine).heap ++ trampolineObjects } := by
  unfold qjs_register_host_functions
  simp only [specEngine, eraseRefs_free, get_value]
  by_cases h : ((eraseRefs s.engine).globals ctx).isSome
  · simp only [h, if_true, eraseRefs_set, eraseRefs_new, new_value, eraseRefs_get, modifyObject,
      List.length_append, List.length_cons, List.length_nil, EngineState.mk.injEq]
    refine ⟨?_, ?_⟩
    · funext c
      by_cases hc : c = ctx
      · subst hc
        cases hg : (eraseRefs s.engine).globals c with
        | none => simp [hg] at h
        | some g => simp [hg, registeredProps]
      · simp [hc]
    · simp [trampolineObjects]
  · simp only [h, Bool.false_eq_true, if_false, eraseRefs_set_exception, eraseRefs_new,
      eraseRefs_get, EngineState.mk.injEq]
    refine ⟨?_, ?_⟩
    · funext c
      by_cases hc : c = ctx
      · subst hc
        cases hg : (eraseRefs s.engine).globals c with
        | none => simp
        | some g => simp [hg] at h
      · simp [hc]
    · simp [trampolineObjects]

theorem globalProps_erase (es : EngineState) (c : JSContext) :
    globalProps (eraseRefs es) c = globalProps es c := by
  unfold globalProps eraseRefs
  cases h : es.globals c <;> simp [h, JSObject.noRefs]

theorem nativeFunction_erase (es : EngineState) (v : JSValue) :
    nativeFunction (eraseRefs es) v = nativeFunction es v := by
  cases v with
  | object r =>
    cases r with
    | globalOf c =>
      simp only [nativeFunction, objectAt, eraseRefs]
      cases h : es.globals c <;> simp [JSObject.noRefs]
    | alloc i =>
      simp only [nativeFunction, objectAt, eraseRefs, List.getElem?_map]
      cases h : es.heap[i]? <;> simp [JSObject.noRefs]
  | _ => rfl

theorem heap_length_erase (es : EngineState) : (eraseRefs es).heap.length = es.heap.length := by
  simp [eraseRefs]

theorem globals_isSome_erase (es : EngineState) (c : JSContext) :
    ((eraseRefs es).globals c).isSome = (es.globals c).isSome := by
  simp [eraseRefs]

/-- The bindings of every context after registration. -/
theorem globalProps_register (base : Engine) (ctx : JSContext) (s : State) (c : JSContext) :
    globalProps (qjs_register_host_functions (specEngine base) ctx s).engine c =
      if c = ctx ∧ (s.engine.globals ctx).isSome then
        registeredProps s.engine.heap.length (globalProps s.engine ctx)
      else globalProps s.engine c := by
  rw [← globalProps_erase, register_erased, ← globalProps_erase s.engine c,
    ← globalProps_erase s.engine ctx, ← globals_isSome_erase, heap_length_erase]
  by_cases hc : c = ctx
  · subst hc
    simp only [globalProps, if_true, true_and]
    cases h : (eraseRefs s.engine).globals c <;> simp
  · simp [globalProps, hc]

/-- The native function objects registration allocates. -/
theorem nativeFunction_register (base : Engine) (ctx : JSContext) (s : State) (i : Nat) :
    nativeFunction (qjs_register_host_functions (specEngine base) ctx s).engine
        (JSValue.object (ObjRef.alloc (s.engine.heap.length + i)))
      = (trampolineObjects[i]?).bind JSObject.cfunc := by
  rw [← nativeFunction_erase, register_erased]
  simp only [nativeFunction, objectAt]
  rw [List.getElem?_append_right (by simp [heap_length_erase])]
  simp [heap_length_erase]

theorem register_slots (E : Engine) (ctx : JSContext) (s : State) (k : Slot) :
    k.get (qjs_register_host_functions E ctx s) = k.get s := by
  cases k <;> rfl

theorem register_host_mem (E : Engine) (ctx : JSContext) (s : State) :
    (qjs_register_host_functions E ctx s).host_mem = s.host_mem := rfl

theorem register_setter_comm (E : Engine) (ctx : JSContext) (k : Slot) (cb : HostCallback)
    (s : State) :
    qjs_register_host_functions E ctx (k.setter cb s)
      = k.setter cb (qjs_register_host_functions E ctx s) := by
  cases k <;> rfl

theorem lookupProp_append (n : String) (l l2 : List (String × JSValue)) :
    lookupProp n (l ++ l2) = (lookupProp n l).orElse (fun _ => lookupProp n l2) := by
  induction l with
  | nil => simp [lookupProp]
  | cons p rest ih =>
    obtain ⟨k, w⟩ := p
    by_cases hk : k = n
    · simp [lookupProp, hk]
    · simp [lookupProp, hk, ih]

/-- What each of the six names is bound to after the six stores. -/
theorem lookupProp_registered (n : Nat) (props : List (String × JSValue)) (k : Slot) :
    lookupProp k.globalName (registeredProps n props)
      = some (JSValue.object (ObjRef.alloc (n + k.index))) := by
  cases k <;>
    simp [registeredProps, Slot.globalName, Slot.index, lookupProp_setProp_same,
      lookupProp_setProp_other]

theorem lookupProp_registered_other (n : Nat) (props : List (String × JSValue)) (name : String)
    (h : ∀ k : Slot, name ≠ k.globalName) :
    lookupProp name (registeredProps n props) = lookupProp name props := by
  have h1 := h Slot.flush
  have h2 := h Slot.events
  have h3 := h Slot.log
  have h4 := h Slot.measure
  have h5 := h Slot.report_error
  have h6 := h Slot.random
  simp only [Slot.globalName] at h1 h2 h3 h4 h5 h6
  simp [registeredProps, lookupProp_setProp_other _ _ (Ne.symm h1),
    lookupProp_setProp_other _ _ (Ne.symm h2), lookupProp_setProp_other _ _ (Ne.symm h3),
    lookupProp_setProp_other _ _ (Ne.symm h4), lookupProp_setProp_other _ _ (Ne.symm h5),
    lookupProp_setProp_other _ _ (Ne.symm h6)]

theorem registeredProps_fresh (n : Nat) (props : List (String × JSValue))
    (hfresh : ∀ k : Slot, lookupProp k.globalName props = none) :
    registeredProps n props = props ++
      [("__hostFlush", JSValue.object (ObjRef.alloc n)),
       ("__hostGetEvents", JSValue.object (ObjRef.alloc (n + 1))),
       ("__hostLog", JSValue.object (ObjRef.alloc (n + 2))),
       ("__hostMeasureText", JSValue.object (ObjRef.alloc (n + 3))),
       ("__hostReportError", JSValue.object (ObjRef.alloc (n + 4))),
       ("__hostRandomBytes", JSValue.object (ObjRef.alloc (n + 5)))] := by
  have h1 := hfresh Slot.flush
  have h2 := hfresh Slot.events
  have h3 := hfresh Slot.log
  have h4 := hfresh Slot.measure
  have h5 := hfresh Slot.report_error
  have h6 := hfresh Slot.random
  simp only [Slot.globalName] at h1 h2 h3 h4 h5 h6
  unfold registeredProps
  rw [setProp_absent _ _ _ h1]
  rw [setProp_absent "__hostGetEvents" _ _ (by simp [lookupProp_append, h2, lookupProp])]
  rw [setProp_absent "__hostLog" _ _ (by simp [lookupProp_append, h3, lookupProp])]
  rw [setProp_absent "__hostMeasureText" _ _ (by simp [lookupProp_append, h4, lookupProp])]
  rw [setProp_absent "__hostReportError" _ _ (by simp [lookupProp_append, h5, lookupProp])]
  rw [setProp_absent "__hostRandomBytes" _ _ (by simp [lookupProp_append, h6, lookupProp])]
  simp

/-- The six names are bound after the six stores, so storing them again keeps
the list of names. -/
theorem names_registeredProps_twice (n m : Nat) (props : List (String × JSValue)) :
    (registeredProps m (registeredProps n props)).map Prod.fst
      = (registeredProps n props).map Prod.fst := by
  have hp : ∀ k : Slot, (lookupProp k.globalName (registeredProps n props)).isSome := by
    intro k; rw [lookupProp_registered]; rfl
  have h1 := hp Slot.flush
  have h2 := hp Slot.events
  have h3 := hp Slot.log
  have h4 := hp Slot.measure
  have h5 := hp Slot.report_error
  have h6 := hp Slot.random
  simp only [Slot.globalName] at h1 h2 h3 h4 h5 h6
  generalize registeredProps n props = q at *
  have keep : ∀ (name other : String) (v : JSValue) (l : List (String × JSValue)),
      (lookupProp name l).isSome → (lookupProp name (setProp other v l)).isSome := by
    intro name other v l hl
    by_cases hne : other = name
    · subst hne; rw [lookupProp_setProp_same]; rfl
    · rw [lookupProp_setProp_other _ _ hne]; exact hl
  unfold registeredProps
  rw [names_setProp_present, names_setProp_present, names_setProp_present,
    names_setProp_present, names_setProp_present, names_setProp_present]
  · exact h1
  · exact keep _ _ _ _ h2
  · exact keep _ _ _ _ (keep _ _ _ _ h3)
  · exact keep _ _ _ _ (keep _ _ _ _ (keep _ _ _ _ h4))
  · exact keep _ _ _ _ (keep _ _ _ _ (keep _ _ _ _ (keep _ _ _ _ h5)))
  · exact keep _ _ _ _ (keep _ _ _ _ (keep _ _ _ _ (keep _ _ _ _ (keep _ _ _ _ h6))))

theorem globalFunction_register (base : Engine) (ctx : JSContext) (s : State)
    (hinit : (s.engine.globals ctx).isSome) (k : Slot) :
    globalFunction (qjs_register_host_functions (specEngine base) ctx s).engine ctx k.globalName
      = some ⟨k.trampolinePtr, k.globalName, k.arity⟩ := by
  unfold globalFunction lookupGlobal
  rw [globalProps_register]
  simp only [hinit, and_self, if_true, lookupProp_registered, Option.some_bind]
  rw [nativeFunction_register]
  cases k <;> rfl

theorem callCFunction_trampolinePtr (host : HostCode) (k : Slot) (ctx : JSContext)
    (this_val : JSValue) (argc : Int) (argv : List JSValue) (s : State) :
    callCFunction host k.trampolinePtr ctx this_val argc argv s
      = some (k.trampoline host ctx this_val argc argv s) := by
  cases k <;> rfl

/-- C5: running `qjs_register_host_functions` on a context whose global object
has none of the six names adds exactly six bindings after the existing ones,
which stay as they were: `__hostFlush` (arity 1, flush trampoline),
`__hostGetEvents` (arity 0, events trampoline), `__hostLog` (arity 1, log
trampoline), `__hostMeasureText` (arity 1, measure trampoline),
`__hostReportError` (arity 1, report-error trampoline), `__hostRandomBytes`
(arity 1, random trampoline), each a native function object named as its
binding; the bindings of other contexts are unchanged. -/
theorem register_installs_six_globals (base : Engine) (ctx : JSContext) (s : State)
    (hinit : (s.engine.globals ctx).isSome)
    (hfresh : ∀ name ∈ ["__hostFlush", "__hostGetEvents", "__hostLog", "__hostMeasureText",
      "__hostReportError", "__hostRandomBytes"], lookupGlobal s.engine ctx name = none) :
    globalProps (qjs_register_host_functions (specEngine base) ctx s).engine ctx
      = globalProps s.engine ctx ++
        [("__hostFlush", JSValue.object (ObjRef.alloc s.engine.heap.length)),
         ("__hostGetEvents", JSValue.object (ObjRef.alloc (s.engine.heap.length + 1))),
         ("__hostLog", JSValue.object (ObjRef.alloc (s.engine.heap.length + 2))),
         ("__hostMeasureText", JSValue.object (ObjRef.alloc (s.engine.heap.length + 3))),
         ("__hostReportError", JSValue.object (ObjRef.alloc (s.engine.heap.length + 4))),
         ("__hostRandomBytes", JSValue.object (ObjRef.alloc (s.engine.heap.length + 5)))]
    ∧ globalFunction (qjs_register_host_functions (specEngine base) ctx s).engine ctx
        "__hostFlush" = some ⟨JSCFunction.trampoline_flush, "__hostFlush", 1⟩
    ∧ globalFunction (qjs_register_host_functions (specEngine base) ctx s).engine ctx
        "__hostGetEvents" = some ⟨JSCFunction.trampoline_events, "__hostGetEvents", 0⟩
    ∧ globalFunction (qjs_register_host_functions (specEngine base) ctx s).engine ctx
        "__hostLog" = some ⟨JSCFunction.trampoline_log, "__hostLog", 1⟩
    ∧ globalFunction (qjs_register_host_functions (specEngine base) ctx s).engine ctx
        "__hostMeasureText" = some ⟨JSCFunction.trampoline_measure, "__hostMeasureText", 1⟩
    ∧ globalFunction (qjs_register_host_functions (specEngine base) ctx s).engine ctx
        "__hostReportError"
        = some ⟨JSCFunction.trampoline_report_error, "__hostReportError", 1⟩
    ∧ globalFunction (qjs_register_host_functions (specEngine base) ctx s).engine ctx
        "__hostRandomBytes" = some ⟨JSCFunction.trampoline_random, "__hostRandomBytes", 1⟩
    ∧ (∀ c, c ≠ ctx →
        globalProps (qjs_register_host_functions (specEngine base) ctx s).engine c
          = globalProps s.engine c) := by
  refine ⟨?_, globalFunction_register base ctx s hinit Slot.flush,
    globalFunction_register base ctx s hinit Slot.events,
    globalFunction_register base ctx s hinit Slot.log,
    globalFunction_register base ctx s hinit Slot.measure,
    globalFunction_register base ctx s hinit Slot.report_error,
    globalFunction_register base ctx s hinit Slot.random, ?_⟩
  · rw [globalProps_register]
    simp only [hinit, and_self, if_true]
    apply registeredProps_fresh
    intro k
    apply hfresh
    cases k <;> simp [Slot.globalName]
  · intro c hc
    rw [globalProps_register]
    simp [hc]

/-- Witness of C5: registration on the sample state (context `1`, empty global
object) yields exactly the six names. -/
theorem register_installs_six_globals_witness :
    globalNames (qjs_register_host_functions (specEngine sampleEngine) 1 sampleState).engine 1
      = ["__hostFlush", "__hostGetEvents", "__hostLog", "__hostMeasureText",
        "__hostReportError", "__hostRandomBytes"] := by
  have h := (register_installs_six_globals sampleEngine 1 sampleState rfl
    (by intro name _; rfl)).1
  unfold globalNames
  rw [h]
  rfl

/-- C6: registration is idempotent in effect: for every state and context, after
a second call in a row every context has the same list of global names as
after the first (none is added), each of the six host names resolves to the
same native function (same trampoline, same name, same arity), and every other
binding holds the very same value. -/
theorem register_twice_same_bindings (base : Engine) (ctx : JSContext) (s : State) :
    (∀ c, globalNames
        (qjs_register_host_functions (specEngine base) ctx
          (qjs_register_host_functions (specEngine base) ctx s)).engine c
        = globalNames (qjs_register_host_functions (specEngine base) ctx s).engine c)
    ∧ (∀ k : Slot, globalFunction
        (qjs_register_host_functions (specEngine base) ctx
          (qjs_register_host_functions (specEngine base) ctx s)).engine ctx k.globalName
        = globalFunction (qjs_register_host_functions (specEngine base) ctx s).engine ctx
          k.globalName)
    ∧ (∀ c name, (c ≠ ctx ∨ ∀ k : Slot, name ≠ k.globalName) → lookupGlobal
        (qjs_register_host_functions (specEngine base) ctx
          (qjs_register_host_functions (specEngine base) ctx s)).engine c name
        = lookupGlobal (qjs_register_host_functions (specEngine base) ctx s).engine c name) := by
  have hsome : ((qjs_register_host_functions (specEngine base) ctx s).engine.globals ctx).isSome
      = (s.engine.globals ctx).isSome := by
    rw [← globals_isSome_erase, register_erased, ← globals_isSome_erase s.engine]
    simp
  refine ⟨?_, ?_, ?_⟩
  · intro c
    unfold globalNames
    rw [globalProps_register base ctx (qjs_register_host_functions (specEngine base) ctx s)]
    by_cases h : c = ctx ∧ (s.engine.globals ctx).isSome
    · obtain ⟨hc, hs⟩ := h
      subst hc
      simp only [hsome, hs, and_self, if_true]
      rw [globalProps_register]
      simp only [hs, and_self, if_true]
      exact names_registeredProps_twice _ _ _
    · rw [hsome, if_neg h]
  · intro k
    by_cases hs : (s.engine.globals ctx).isSome
    · rw [globalFunction_register base ctx _ (by rw [hsome]; exact hs) k,
        globalFunction_register base ctx s hs k]
    · unfold globalFunction lookupGlobal
      rw [globalProps_register base ctx (qjs_register_host_functions (specEngine base) ctx s),
        hsome]
      simp only [hs, and_false, if_false]
      rw [globalProps_register]
      simp only [hs, and_false, if_false]
      have hnone : globalProps s.engine ctx = [] := by
        unfold globalProps
        cases hg : s.engine.globals ctx with
        | none => rfl
        | some g => simp [hg] at hs
      simp [hnone, lookupProp]
  · intro c name hor
    unfold lookupGlobal
    rw [globalProps_register base ctx (qjs_register_host_functions (specEngine base) ctx s)]
    by_cases h : c = ctx ∧ (s.engine.globals ctx).isSome
    · obtain ⟨hc, hs⟩ := h
      subst hc
      simp only [hsome, hs, and_self, if_true]
      rcases hor with hne | hname
      · exact absurd rfl hne
      · rw [lookupProp_registered_other _ _ _ hname]
    · rw [hsome, if_neg h]

/-- Witness of C6: on the sample state two registrations in a row leave context
`1` with the six names, as one does, and `__hostGetEvents` resolves alike. -/
theorem register_twice_same_bindings_witness :
    globalNames
        (qjs_register_host_functions (specEngine sampleEngine) 1
          (qjs_register_host_functions (specEngine sampleEngine) 1 sampleState)).engine 1
      = globalNames (qjs_register_host_functions (specEngine sampleEngine) 1 sampleState).engine 1
    ∧ globalFunction
        (qjs_register_host_functions (specEngine sampleEngine) 1
          (qjs_register_host_functions (specEngine sampleEngine) 1 sampleState)).engine 1
        "__hostGetEvents"
      = globalFunction (qjs_register_host_functions (specEngine sampleEngine) 1 sampleState).engine
        1 "__hostGetEvents" :=
  ⟨(register_twice_same_bindings sampleEngine 1 sampleState).1 1,
    (register_twice_same_bindings sampleEngine 1 sampleState).2.1 Slot.events⟩

/-- C8: the order of registration relative to a setter does not matter: for any
engine, slot and callback the two orders reach the same state, so every later
invocation of any global gives the same result. With the engine's global
namespace as specified and an initialised context, invoking the slot's global
in that state calls exactly the callback the setter stored, although the
setter ran after registration: the trampoline reads its slot at call time. -/
theorem registration_order_irrelevant (E base : Engine) (host : HostCode) (k : Slot)
    (cb : HostCallback) (ctx : JSContext) (s : State) :
    qjs_register_host_functions E ctx (k.setter cb s)
      = k.setter cb (qjs_register_host_functions E ctx s)
    ∧ (∀ c name this_val argc argv,
        invokeGlobal host c name this_val argc argv
            (qjs_register_host_functions E ctx (k.setter cb s))
          = invokeGlobal host c name this_val argc argv
            (k.setter cb (qjs_register_host_functions E ctx s)))
    ∧ ((s.engine.globals ctx).isSome → cb ≠ NULL → ∀ this_val argc argv,
        (invokeGlobal host ctx k.globalName this_val argc argv
            (k.setter cb (qjs_register_host_functions (specEngine base) ctx s))).map Outcome.calls
          = some [⟨cb, ctx, argc, argv, JS_UNDEFINED⟩]) := by
  refine ⟨register_setter_comm E ctx k cb s, ?_, ?_⟩
  · intro c name this_val argc argv
    rw [register_setter_comm]
  · intro hinit hcb this_val argc argv
    unfold invokeGlobal
    rw [setter_engine, globalFunction_register base ctx s hinit k]
    simp only [callCFunction_trampolinePtr, Option.map_some', trampoline_eq, get_setter_same]
    simp [hcb]

/-- Witness of C8: the log callback `8` is stored after registration on the sample
state; invoking `__hostLog` calls it. -/
theorem registration_order_irrelevant_witness :
    (invokeGlobal sampleHost 1 "__hostLog" JSValue.null 2 [] 
        (Slot.log.setter 8
          (qjs_register_host_functions (specEngine sampleEngine) 1 sampleState))).map Outcome.calls
      = some [⟨8, 1, 2, [], JS_UNDEFINED⟩] :=
  (registration_order_irrelevant sampleEngine sampleEngine sampleHost Slot.log 8 1
    sampleState).2.2 rfl (by decide) JSValue.null 2 []

/-- C7: each of the nine re-exported primitives returns exactly what its inline
counterpart returns on the same arguments (and leaves the engine state that
counterpart leaves). For the two predicates, whose bodies are
`JS_Is..._inline(val) ? 1 : 0`, this is so because the inline predicate yields
a C truth value, `0` or `1`. -/
theorem reexports_equal_inline (E : Engine) (ctx : JSContext) (val : JSValue) (str : String)
    (n : Int) (bits : Nat) (func : JSCFunction) (name : String) (length : Int) (atom : Nat)
    (es : EngineState)
    (hexc : E.JS_IsException_inline val = 0 ∨ E.JS_IsException_inline val = 1)
    (hund : E.JS_IsUndefined_inline val = 0 ∨ E.JS_IsUndefined_inline val = 1) :
    JS_ToCString E ctx val es = E.JS_ToCString_inline ctx val es
    ∧ JS_NewString E ctx str es = E.JS_NewString_inline ctx str es
    ∧ JS_NewBool E ctx n es = E.JS_NewBool_inline ctx n es
    ∧ JS_NewInt32 E ctx n es = E.JS_NewInt32_inline ctx n es
    ∧ JS_NewFloat64 E ctx bits es = E.JS_NewFloat64_inline ctx bits es
    ∧ JS_IsException E val = E.JS_IsException_inline val
    ∧ JS_IsUndefined E val = E.JS_IsUndefined_inline val
    ∧ JS_NewCFunction E ctx func name length es
        = E.JS_NewCFunction_inline ctx func name length es
    ∧ JS_AtomToCString E ctx atom es = E.JS_AtomToCString_inline ctx atom es := by
  refine ⟨rfl, rfl, rfl, rfl, rfl, ?_, ?_, rfl, rfl⟩
  · unfold JS_IsException
    rcases hexc with h | h <;> simp [h]
  · unfold JS_IsUndefined
    rcases hund with h | h <;> simp [h]

/-- Witness of C7: the sample engine on the exception value. -/
theorem reexports_equal_inline_witness :
    JS_IsException sampleEngine JSValue.exception = 1
    ∧ JS_IsUndefined sampleEngine JSValue.exception = 0 :=
  ⟨(reexports_equal_inline sampleEngine 1 JSValue.exception "s" 3 0 (JSCFunction.other 0) "f" 0 0
      sampleEngineState (Or.inr rfl) (Or.inl rfl)).2.2.2.2.2.1,
    (reexports_equal_inline sampleEngine 1 JSValue.exception "s" 3 0 (JSCFunction.other 0) "f" 0 0
      sampleEngineState (Or.inr rfl) (Or.inl rfl)).2.2.2.2.2.2.1⟩

end QjsFfiShim
